import Mathlib

/-!
# Verification of `pygrader` `common/submissions.py`

A shallow embedding of the grading-harness submission utilities:

* `check_late` — deadline comparison (datetime parsing, normalization to
  second 59, localization to America/New_York, `<=` comparison);
* `checkout_to_team_branch` — remote registration, tag cleanup, fetch with
  blind retry, tracking-branch creation;
* the `tag` decorator body (`checkout_to_tag_then_test`) and `to_branch` —
  the ref-resolution / checkout state machine run before each test.

Python's `datetime` / `pytz` / `dateutil` and GitPython are external
libraries; they are modelled by executable Lean functions that follow their
documented behaviour on the inputs this program produces.  Git commands are
modelled by a state-and-trace monad `M` over an abstract repository state;
every issued git command is recorded in the trace, so claims about "which
operations run" are claims about the trace.
-/

/-! ## Python datetime model

A `PyDateTime` is a wall-clock date-time plus microseconds plus an optional
UTC offset in minutes (`none` = naive, mirroring `tzinfo=None`). -/

structure PyDateTime where
  year : Int
  month : Nat
  day : Nat
  hour : Nat
  minute : Nat
  second : Nat
  micro : Nat
  offsetMin : Option Int
deriving DecidableEq, Repr

/-- Proleptic-Gregorian day count for midnight of y-m-d, relative to
1970-01-01 (civil-days algorithm, valid for all inputs this program meets). -/
def daysFromCivil (y : Int) (m d : Nat) : Int :=
  let y' : Int := if m ≤ 2 then y - 1 else y
  let era : Int := (if 0 ≤ y' then y' else y' - 399) / 400
  let yoe : Int := y' - era * 400
  let mp : Int := ((m : Int) + 9) % 12
  let doy : Int := (153 * mp + 2) / 5 + (d : Int) - 1
  let doe : Int := yoe * 365 + yoe / 4 - yoe / 100 + doy
  era * 146097 + doe - 719468

def isLeapYear (y : Int) : Bool :=
  y % 4 = 0 && (y % 100 ≠ 0 || y % 400 = 0)

def daysInMonth (y : Int) (m : Nat) : Nat :=
  if m = 2 then (if isLeapYear y then 29 else 28)
  else if m = 4 || m = 6 || m = 9 || m = 11 then 30
  else 31

/-- Seconds of local wall-clock time since the epoch wall-clock instant. -/
def wallSecs (dt : PyDateTime) : Int :=
  daysFromCivil dt.year dt.month dt.day * 86400
    + (dt.hour : Int) * 3600 + (dt.minute : Int) * 60 + (dt.second : Int)

/-- Absolute UTC instant in seconds (offset subtracted); for a naive
datetime this is just wall-clock seconds (used only against other naives). -/
def instantSecs (dt : PyDateTime) : Int :=
  wallSecs dt - (dt.offsetMin.getD 0) * 60

/-- Datetime order used by Python `<=` once awareness agrees: instant
seconds, microseconds as tie-break. -/
def dtLe (a b : PyDateTime) : Bool :=
  instantSecs a < instantSecs b
    || (instantSecs a = instantSecs b && a.micro ≤ b.micro)

/-- Python `a <= b` on datetimes: `none` models the `TypeError` raised when
comparing a naive datetime with an aware one. -/
def pyLe (a b : PyDateTime) : Option Bool :=
  match a.offsetMin, b.offsetMin with
  | some _, some _ => some (dtLe a b)
  | none, none => some (dtLe a b)
  | _, _ => none

/-! ## America/New_York localization (pytz model)

US DST rule (in force since 2007): DST between the second Sunday of March
and the first Sunday of November.  `pytz.localize` with the default
`is_dst=False` resolves the ambiguous/non-existent wall-clock hours toward
standard time, which the boundary hours below reproduce. -/

/-- Day of week of y-m-d, 0 = Sunday. -/
def weekday (y : Int) (m d : Nat) : Nat :=
  ((daysFromCivil y m d + 4) % 7).toNat

def secondSundayOfMarch (y : Int) : Nat :=
  1 + (7 - weekday y 3 1) % 7 + 7

def firstSundayOfNovember (y : Int) : Nat :=
  1 + (7 - weekday y 11 1) % 7

def isNYDst (dt : PyDateTime) : Bool :=
  let ss := secondSundayOfMarch dt.year
  let fs := firstSundayOfNovember dt.year
  (3 < dt.month || (dt.month = 3 && (ss < dt.day || (dt.day = ss && 3 ≤ dt.hour))))
    && (dt.month < 11 || (dt.month = 11 && (dt.day < fs || (dt.day = fs && dt.hour < 1))))

/-- `pytz.timezone("America/New_York").localize(dt)`: attach the NY UTC
offset (in minutes) determined from the naive wall-clock time. -/
def localizeNY (dt : PyDateTime) : PyDateTime :=
  { dt with offsetMin := some (if isNYDst dt then -240 else -300) }

/-! ## Parsing -/

def digitVal (c : Char) : Nat := c.toNat - 48

/-- Exactly `n` leading digits, as a number. -/
def takeDigits : Nat → List Char → Option (Nat × List Char)
  | 0, cs => some (0, cs)
  | n + 1, c :: cs =>
      if c.isDigit then
        match takeDigits n cs with
        | some (v, rest) => some (digitVal c * 10 ^ n + v, rest)
        | none => none
      else none
  | _ + 1, [] => none

/-- One-or-two-digit field: candidate parses, two-digit one first (models
the backtracking of the `_strptime` regex alternations). -/
def parseNat2 : List Char → List (Nat × List Char)
  | a :: b :: rest =>
      if a.isDigit && b.isDigit then
        [(digitVal a * 10 + digitVal b, rest), (digitVal a, b :: rest)]
      else if a.isDigit then [(digitVal a, b :: rest)]
      else []
  | [a] => if a.isDigit then [(digitVal a, [])] else []
  | [] => []

def expectChar (c : Char) : List Char → Option (List Char)
  | x :: rest => if x = c then some rest else none
  | [] => none

def isPySpace (c : Char) : Bool :=
  c = ' ' || c = '\t' || c = '\n' || c = '\r' || c = '\x0b' || c = '\x0c'

def dropSpaces : List Char → List Char
  | c :: rest => if isPySpace c then dropSpaces rest else c :: rest
  | [] => []

/-- One or more whitespace characters (the `\s+` a blank in the format
string compiles to). -/
def skipSpaces1 : List Char → Option (List Char)
  | c :: rest => if isPySpace c then some (dropSpaces rest) else none
  | [] => none

/-- `AM`/`PM`, case-insensitive; `true` = PM. -/
def parseAmPm : List Char → Option (Bool × List Char)
  | a :: m :: rest =>
      if (a = 'A' || a = 'a') && (m = 'M' || m = 'm') then some (false, rest)
      else if (a = 'P' || a = 'p') && (m = 'M' || m = 'm') then some (true, rest)
      else none
  | _ => none

/-- `datetime.strptime(line, "%m/%d/%y %I:%M %p")`, including the
"unconverted data remains" check and the `datetime` constructor's
day-of-month validation.  `%y ≤ 68` maps to 20yy, otherwise 19yy. -/
def strptimeDeadline (line : String) : Option PyDateTime :=
  (parseNat2 line.toList).findSome? fun (m, r1) =>
    if 1 ≤ m && m ≤ 12 then
      (expectChar '/' r1).bind fun r2 =>
      (parseNat2 r2).findSome? fun (d, r3) =>
        if 1 ≤ d && d ≤ 31 then
          (expectChar '/' r3).bind fun r4 =>
          (takeDigits 2 r4).bind fun (y2, r5) =>
          (skipSpaces1 r5).bind fun r6 =>
          (parseNat2 r6).findSome? fun (h12, r7) =>
            if 1 ≤ h12 && h12 ≤ 12 then
              (expectChar ':' r7).bind fun r8 =>
              (parseNat2 r8).findSome? fun (mi, r9) =>
                if mi ≤ 59 then
                  (skipSpaces1 r9).bind fun r10 =>
                  (parseAmPm r10).bind fun (pm, r11) =>
                  if r11 = [] then
                    let year : Int := if y2 ≤ 68 then 2000 + y2 else 1900 + y2
                    let hour : Nat :=
                      if pm then (if h12 = 12 then 12 else h12 + 12)
                      else (if h12 = 12 then 0 else h12)
                    if d ≤ daysInMonth year m then
                      some { year := year, month := m, day := d, hour := hour,
                             minute := mi, second := 0, micro := 0,
                             offsetMin := none }
                    else none
                  else none
                else none
            else none
        else none
    else none

/-- Scale 1–6 fraction digits to microseconds. -/
def fracToMicro (ds : List Char) : Nat :=
  (ds.foldl (fun a c => a * 10 + digitVal c) 0) * 10 ^ (6 - ds.length)

def takeWhileDigits : List Char → List Char × List Char
  | c :: rest =>
      if c.isDigit then
        let (ds, r) := takeWhileDigits rest
        (c :: ds, r)
      else ([], c :: rest)
  | [] => ([], [])

/-- UTC-offset tail of an ISO string: end of input (naive), `Z`, or
`±HH[:MM]` / `±HHMM`, offset strictly below one day. -/
def parseIsoOffset : List Char → Option (Option Int)
  | [] => some none
  | ['Z'] => some (some 0)
  | ['z'] => some (some 0)
  | sign :: rest =>
      if sign = '+' || sign = '-' then
        (takeDigits 2 rest).bind fun (oh, r1) =>
        (match r1 with
         | [] => some 0
         | ':' :: r2 =>
             (takeDigits 2 r2).bind fun (om, r3) =>
             if r3 = [] then some om else none
         | _ =>
             (takeDigits 2 r1).bind fun (om, r3) =>
             if r3 = [] then some om else none).bind
        fun (om : Nat) =>
          if oh ≤ 23 && om ≤ 59 then
            let total : Int := (oh : Int) * 60 + om
            some (some (if sign = '-' then -total else total))
          else none
      else none

/-- Time-of-day and offset tail: `HH:MM[:SS[.ffffff]][offset]`. -/
def parseIsoTime (cs : List Char) : Option (Nat × Nat × Nat × Nat × Option Int) :=
  (takeDigits 2 cs).bind fun (h, r1) =>
  (expectChar ':' r1).bind fun r2 =>
  (takeDigits 2 r2).bind fun (mi, r3) =>
  (match r3 with
   | ':' :: r4 =>
       (takeDigits 2 r4).bind fun (sec, r5) =>
       (match r5 with
        | '.' :: r6 =>
            let (ds, r7) := takeWhileDigits r6
            if 1 ≤ ds.length && ds.length ≤ 6 then
              some (sec, fracToMicro ds, r7)
            else none
        | ',' :: r6 =>
            let (ds, r7) := takeWhileDigits r6
            if 1 ≤ ds.length && ds.length ≤ 6 then
              some (sec, fracToMicro ds, r7)
            else none
        | _ => some (sec, 0, r5))
   | _ => some (0, 0, r3)).bind
  fun (sec, mic, r8) =>
    if h ≤ 23 && mi ≤ 59 && sec ≤ 59 then
      (parseIsoOffset r8).map fun off => (h, mi, sec, mic, off)
    else none

/-- `datetime.fromisoformat` on the extended format this program meets:
`YYYY-MM-DD[{T,t,space}HH:MM[:SS[.ffffff]]][offset]`.  `none` models the
`ValueError` raised on anything else. -/
def fromisoformat (s : String) : Option PyDateTime :=
  (takeDigits 4 s.toList).bind fun (y, r1) =>
  (expectChar '-' r1).bind fun r2 =>
  (takeDigits 2 r2).bind fun (mo, r3) =>
  (expectChar '-' r3).bind fun r4 =>
  (takeDigits 2 r4).bind fun (d, r5) =>
  if 1 ≤ mo && mo ≤ 12 && 1 ≤ d && d ≤ daysInMonth (y : Int) mo then
    match r5 with
    | [] =>
        some { year := y, month := mo, day := d, hour := 0, minute := 0,
               second := 0, micro := 0, offsetMin := none }
    | sep :: r6 =>
        if sep = 'T' || sep = 't' || sep = ' ' then
          (parseIsoTime r6).map fun (h, mi, sec, mic, off) =>
            { year := y, month := mo, day := d, hour := h, minute := mi,
              second := sec, micro := mic, offsetMin := off }
        else none
  else none

/-! ## `check_late` -/

/-- The exceptions `check_late` can raise: `ValueError` from
`datetime.fromisoformat`, `ValueError` from `datetime.strptime` (the
spec's `DeadlineParseError`), and the `TypeError` from comparing a naive
submission timestamp with the aware deadline. -/
inductive CheckLateError
  | timestampParseError
  | deadlineParseError
  | naiveAwareCompareError
deriving DecidableEq, Repr

/-- `check_late(deadline_path, iso_timestamp)`.  `deadline_line` is what
`d.readline()` returns for the file (empty string for an empty file).
The printed on-time/late report is a pure side effect and is not modelled;
the returned boolean and the raised exceptions are. -/
def check_late (deadline_line iso_timestamp : String) : Except CheckLateError Bool :=
  match fromisoformat iso_timestamp with
  | none => .error .timestampParseError
  | some submission =>
      if deadline_line = "" then .ok false
      else
        match strptimeDeadline deadline_line with
        | none => .error .deadlineParseError
        | some raw_deadline =>
            let deadline :=
              localizeNY { raw_deadline with second := 59, offsetMin := none }
            match pyLe submission deadline with
            | none => .error .naiveAwareCompareError
            | some true => .ok false
            | some false => .ok true

/-! ## Git model

Git commands issued by the program.  The trace of a run records every
command attempted (successful or not), in order. -/

inductive GitCmd
  | checkout (ref : String)                 -- `git checkout <ref>`
  | checkoutTree                            -- `git checkout -- *`
  | checkoutNew (branch start : String)     -- `git checkout -b <branch> <start>`
  | remoteRm (name : String)                -- `git remote rm <name>`
  | createRemote (name url : String)        -- `repo.create_remote(name, url)`
  | deleteTag (t : String)                  -- `repo.delete_tag(t)`
  | fetch (remote arg : String)             -- `git fetch <remote> <arg>`
  | branchDelete (name : String)            -- `git branch -D <name>`
  | clean                                   -- `git clean -f -d`
  | describe                                -- `git describe --always`
  | revParseHead                            -- `git rev-parse --abbrev-ref HEAD`
  | shell                                   -- `os.system("bash")`
deriving DecidableEq, Repr

/-- Refs of a team's remote repository (the fetch source). -/
structure RemoteRepo where
  tags : List String
  branches : List String
deriving DecidableEq, Repr

/-- Local repository state.  `head` is the current checked-out ref
descriptor: it is what both `git describe --always` and
`git rev-parse --abbrev-ref HEAD` report in this model. -/
structure RepoState where
  head : String
  branches : List String
  tags : List String
  remotes : List (String × String)          -- (name, url)
  remoteRefs : List String                  -- remote-tracking refs "name/branch"
deriving DecidableEq, Repr

/-- External environment: which URLs resolve to a remote repository, and
whether the i-th fetch of the session succeeds at the network level. -/
structure GitEnv where
  repoAt : String → Option RemoteRepo
  fetchOk : Nat → Bool

structure GitS where
  repo : RepoState
  env : GitEnv
  fetchCount : Nat
  trace : List GitCmd

structure GitError where
  msg : String
deriving DecidableEq, Repr

/-- State-and-trace monad: `GitError` models `git.GitError`; state (the
repository and the trace) survives a raised error, as it does in reality. -/
def M (α : Type) : Type := GitS → Except GitError α × GitS

def M.pure (a : α) : M α := fun s => (.ok a, s)

def M.bind (x : M α) (f : α → M β) : M β := fun s =>
  match x s with
  | (.ok a, s') => f a s'
  | (.error e, s') => (.error e, s')

instance : Monad M where
  pure := M.pure
  bind := M.bind

/-- Python `try: x except git.GitError: h`. -/
def M.tryCatch (x : M α) (h : GitError → M α) : M α := fun s =>
  match x s with
  | (.ok a, s') => (.ok a, s')
  | (.error e, s') => h e s'

def record (c : GitCmd) (s : GitS) : GitS :=
  { s with trace := s.trace ++ [c] }

/-- List union without duplicates (fetched refs already present are not
duplicated). -/
def unionL (l r : List String) : List String :=
  l ++ r.filter (fun x => decide (x ∉ l))

def listStarts : List Char → List Char → Bool
  | [], _ => true
  | _ :: _, [] => false
  | a :: as, b :: bs => a = b && listStarts as bs

/-! ### Git command semantics -/

/-- `git checkout <ref>`, following real git's resolution order: a local
branch switches HEAD; otherwise a committish (a tag, or a remote-tracking
ref named in full) is checked out detached; otherwise git's default
`checkout.guess` remote-branch guessing applies — when exactly one
registered remote has a remote-tracking ref `{remote}/{ref}`, a local
branch `ref` is created from it and checked out.  Anything else (no match,
or a match in several remotes, which git rejects as ambiguous) raises. -/
def gitCheckout (ref : String) : M Unit := fun s =>
  let s := record (.checkout ref) s
  if ref ∈ s.repo.branches ∨ ref ∈ s.repo.tags ∨ ref ∈ s.repo.remoteRefs then
    (.ok (), { s with repo := { s.repo with head := ref } })
  else if (s.repo.remotes.filter
      (fun n => decide ((n.1 ++ "/" ++ ref) ∈ s.repo.remoteRefs))).length = 1 then
    (.ok (), { s with repo :=
      { s.repo with branches := s.repo.branches ++ [ref], head := ref } })
  else (.error ⟨"checkout failed"⟩, s)

/-- `git checkout -- *`: restores tracked files; no ref-level state change. -/
def gitCheckoutTree : M Unit := fun s =>
  (.ok (), record .checkoutTree s)

/-- `git checkout -b <branch> <start>`: fails if `branch` exists or `start`
does not; otherwise creates the branch and moves HEAD to it. -/
def gitCheckoutB (branch start : String) : M Unit := fun s =>
  let s := record (.checkoutNew branch start) s
  if branch ∈ s.repo.branches then (.error ⟨"branch exists"⟩, s)
  else if start ∈ s.repo.branches ∨ start ∈ s.repo.tags ∨ start ∈ s.repo.remoteRefs then
    (.ok (), { s with repo :=
      { s.repo with branches := s.repo.branches ++ [branch], head := branch } })
  else (.error ⟨"no such start ref"⟩, s)

/-- `git remote rm <name>`: removes the remote and its remote-tracking refs
if present; raises if there is no such remote. -/
def gitRemoteRm (name : String) : M Unit := fun s =>
  let s := record (.remoteRm name) s
  if s.repo.remotes.any (fun r => r.1 == name) then
    (.ok (), { s with repo :=
      { s.repo with
        remotes := s.repo.remotes.filter (fun r => r.1 != name),
        remoteRefs := s.repo.remoteRefs.filter
          (fun r => !listStarts (name ++ "/").toList r.toList) } })
  else (.error ⟨"no such remote"⟩, s)

/-- `repo.create_remote(name, url)`: fails if the remote already exists. -/
def gitCreateRemote (name url : String) : M Unit := fun s =>
  let s := record (.createRemote name url) s
  if s.repo.remotes.any (fun r => r.1 == name) then
    (.error ⟨"remote exists"⟩, s)
  else
    (.ok (), { s with repo :=
      { s.repo with remotes := s.repo.remotes ++ [(name, url)] } })

/-- `repo.delete_tag(t)`. -/
def gitDeleteTag (t : String) : M Unit := fun s =>
  let s := record (.deleteTag t) s
  (.ok (), { s with repo :=
    { s.repo with tags := s.repo.tags.filter (fun x => x != t) } })

/-- `git fetch <name> <arg>`: needs the remote to be registered, its URL to
resolve, and the network (the session-indexed `fetchOk` oracle) to be up.
`--tags` brings over all tags and, per git's default refspec, updates all
remote-tracking refs; fetching a named branch requires it to exist on the
remote and updates its remote-tracking ref. -/
def gitFetch (name arg : String) : M Unit := fun s =>
  let s := record (.fetch name arg) s
  let i := s.fetchCount
  let s := { s with fetchCount := i + 1 }
  match s.repo.remotes.find? (fun r => r.1 == name) with
  | none => (.error ⟨"no such remote"⟩, s)
  | some (_, url) =>
      match s.env.repoAt url with
      | none => (.error ⟨"could not read from remote"⟩, s)
      | some content =>
          if s.env.fetchOk i then
            if arg = "--tags" then
              (.ok (), { s with repo :=
                { s.repo with
                  tags := unionL s.repo.tags content.tags,
                  remoteRefs := unionL s.repo.remoteRefs
                    (content.branches.map (fun b => name ++ "/" ++ b)) } })
            else if arg ∈ content.branches then
              (.ok (), { s with repo :=
                { s.repo with
                  remoteRefs := unionL s.repo.remoteRefs [name ++ "/" ++ arg] } })
            else (.error ⟨"no such remote ref"⟩, s)
          else (.error ⟨"network failure"⟩, s)

/-- `git branch -D <name>`: deletes the branch; fails if absent or if it is
the currently checked-out branch. -/
def gitBranchD (name : String) : M Unit := fun s =>
  let s := record (.branchDelete name) s
  if name ∈ s.repo.branches then
    if name = s.repo.head then (.error ⟨"checked out"⟩, s)
    else
      (.ok (), { s with repo :=
        { s.repo with branches := s.repo.branches.filter (fun b => b != name) } })
  else (.error ⟨"no such branch"⟩, s)

/-- `git clean -f -d`: removes untracked files; no ref-level state change. -/
def gitClean : M Unit := fun s => (.ok (), record .clean s)

/-- `git describe --always`: the current HEAD descriptor. -/
def gitDescribe : M String := fun s =>
  (.ok s.repo.head, record .describe s)

/-- `git rev-parse --abbrev-ref HEAD`: the current branch name. -/
def gitRevParseHead : M String := fun s =>
  (.ok s.repo.head, record .revParseHead s)

/-- `os.system("bash")`: the interactive recovery shell; recorded, no
repository-state change is assumed. -/
def gitShell : M Unit := fun s => (.ok (), record .shell s)

def getTags : M (List String) := fun s => (.ok s.repo.tags, s)

/-! ### The program's git operations -/

/-- `for tag_ref in repo.tags: repo.delete_tag(tag_ref)` over the snapshot
of tags taken when the loop starts. -/
def deleteAllTags : List String → M Unit
  | [] => M.pure ()
  | t :: ts => do
      gitDeleteTag t
      deleteAllTags ts

/-- `checkout_to_team_branch(repo, team_repo_id, team, branch_name)`. -/
def checkout_to_team_branch (team_repo_id team : String)
    (branch_name : String := "main") : M Bool := do
  gitCheckout branch_name       -- Make sure we're on the branch (skel).
  M.tryCatch (gitRemoteRm team) (fun _ => M.pure ())
  -- Remove all tags just in case.
  let tags ← getTags
  deleteAllTags tags
  gitCreateRemote team s!"git@github.com:{team_repo_id}.git"
  gitFetch team "--tags"
  M.tryCatch (gitFetch team "main") (fun _ => gitFetch team "main")
  -- Let's checkout to the team's branch.
  let team_branch := s!"{team}-{branch_name}"
  M.tryCatch (gitBranchD team_branch) (fun _ => M.pure ())
  if branch_name = "main" then
    M.tryCatch (gitCheckoutB team_branch s!"{team}/{branch_name}")
      (fun _ => gitCheckoutB team_branch s!"{team}/main")
  else
    gitCheckoutB team_branch s!"{team}/{branch_name}"
  M.pure true

/-- Body of the function the `tag(tag_name)` decorator wraps around a test,
up to (and excluding) the call of the wrapped test itself.  `tag_name` is
the decorator's captured variable; because of the `nonlocal` rebinding the
wrapper returns the value the captured variable holds after this
invocation, which the next invocation of the same wrapped test receives as
its `tag_name`. -/
def checkout_to_tag_then_test (tag_name submitter : String) : M String := do
  let current_tag ← gitDescribe
  if tag_name ≠ current_tag then do
    -- Clean first
    gitCheckoutTree
    let tag_name' := if tag_name = "main" then submitter else tag_name
    M.tryCatch (gitCheckout tag_name') (fun _ => gitShell)
    gitClean
    M.pure tag_name'
  else do
    -- No cleaning in case the TA made necessary changes to the
    -- submission that we don't want to throw away
    gitClean
    M.pure tag_name

/-- `to_branch(hw_instance, branch_name)`. -/
def to_branch (submitter branch_name : String) : M Unit := do
  let current_branch ← gitRevParseHead
  let target_branch := s!"{submitter}-{branch_name}"
  if current_branch ≠ target_branch then do
    -- Clean first
    gitCheckoutTree
    M.tryCatch (gitCheckout target_branch) (fun _ => gitShell)
  else
    M.pure ()
  gitClean

/-- Trace of git commands a computation performs from state `s`. -/
def traceOf (m : M α) (s : GitS) : List GitCmd :=
  (m { s with trace := [] }).2.trace

/-! ## Run lemmas -/

theorem run_bind_ok {α β : Type} {x : M α} {f : α → M β} {s t : GitS} {a : α}
    (h : x s = (.ok a, t)) : (x >>= f) s = f a t := by
  show M.bind x f s = f a t
  simp [M.bind, h]

theorem run_bind_err {α β : Type} {x : M α} {f : α → M β} {s t : GitS} {e : GitError}
    (h : x s = (.error e, t)) : (x >>= f) s = (.error e, t) := by
  show M.bind x f s = (.error e, t)
  simp [M.bind, h]

theorem run_try_ok {α : Type} {x : M α} {h : GitError → M α} {s t : GitS} {a : α}
    (hx : x s = (.ok a, t)) : M.tryCatch x h s = (.ok a, t) := by
  simp [M.tryCatch, hx]

theorem run_try_err {α : Type} {x : M α} {h : GitError → M α} {s t : GitS} {e : GitError}
    (hx : x s = (.error e, t)) : M.tryCatch x h s = h e t := by
  simp [M.tryCatch, hx]

theorem gitDescribe_run (s : GitS) :
    gitDescribe s = (.ok s.repo.head, record .describe s) := rfl

theorem gitRevParseHead_run (s : GitS) :
    gitRevParseHead s = (.ok s.repo.head, record .revParseHead s) := rfl

theorem gitClean_run (s : GitS) :
    gitClean s = (.ok (), record .clean s) := rfl

theorem gitCheckoutTree_run (s : GitS) :
    gitCheckoutTree s = (.ok (), record .checkoutTree s) := rfl

theorem gitShell_run (s : GitS) :
    gitShell s = (.ok (), record .shell s) := rfl

theorem getTags_run (s : GitS) : getTags s = (.ok s.repo.tags, s) := rfl

theorem gitCheckout_ok {ref : String} {s : GitS}
    (h : ref ∈ s.repo.branches ∨ ref ∈ s.repo.tags ∨ ref ∈ s.repo.remoteRefs) :
    gitCheckout ref s =
      (.ok (), { s with repo := { s.repo with head := ref },
                        trace := s.trace ++ [.checkout ref] }) := by
  simp [gitCheckout, record, h]

/-- Checkout via the unique-remote-tracking-ref guess: a local branch is
created and checked out. -/
theorem gitCheckout_dwim_ok {ref : String} {s : GitS}
    (h : ¬ (ref ∈ s.repo.branches ∨ ref ∈ s.repo.tags ∨ ref ∈ s.repo.remoteRefs))
    (hdw : (s.repo.remotes.filter
      (fun n => decide ((n.1 ++ "/" ++ ref) ∈ s.repo.remoteRefs))).length = 1) :
    gitCheckout ref s =
      (.ok (), { s with
        repo := { s.repo with branches := s.repo.branches ++ [ref], head := ref },
        trace := s.trace ++ [.checkout ref] }) := by
  simp [gitCheckout, record, h, hdw]

theorem gitCheckout_fail {ref : String} {s : GitS}
    (h : ¬ (ref ∈ s.repo.branches ∨ ref ∈ s.repo.tags ∨ ref ∈ s.repo.remoteRefs))
    (hdw : ¬ (s.repo.remotes.filter
      (fun n => decide ((n.1 ++ "/" ++ ref) ∈ s.repo.remoteRefs))).length = 1) :
    gitCheckout ref s =
      (.error ⟨"checkout failed"⟩, { s with trace := s.trace ++ [.checkout ref] }) := by
  simp [gitCheckout, record, h, hdw]

/-- MATCHED path of the tag wrapper: only `describe` and `clean -f -d` run,
the repository (refs, branches, tags, remotes) is untouched, and the
captured `tag_name` keeps its value. -/
theorem tag_wrapper_matched (tag_name submitter : String) (s : GitS)
    (h : s.repo.head = tag_name) :
    checkout_to_tag_then_test tag_name submitter s =
      (.ok tag_name, { s with trace := s.trace ++ [.describe, .clean] }) := by
  rw [checkout_to_tag_then_test]
  rw [run_bind_ok (gitDescribe_run s)]
  simp only []
  rw [h, if_neg (by simp)]
  rw [run_bind_ok (gitClean_run _)]
  simp [M.pure, record]

/-- MISMATCHED path of the tag wrapper: the target is resolved (submitter
for logical "main", else the tag itself), the tree is restored, the
checkout attempted (shell on failure), the tree cleaned; the resolved
target is the wrapper's new captured `tag_name`. -/
theorem tag_wrapper_mismatched (tag_name submitter : String) (s : GitS)
    (h : s.repo.head ≠ tag_name) :
    (checkout_to_tag_then_test tag_name submitter s).1
      = .ok (if tag_name = "main" then submitter else tag_name) ∧
    ((checkout_to_tag_then_test tag_name submitter s).2.trace
        = s.trace ++ [.describe, .checkoutTree,
            .checkout (if tag_name = "main" then submitter else tag_name), .clean]
      ∨ (checkout_to_tag_then_test tag_name submitter s).2.trace
        = s.trace ++ [.describe, .checkoutTree,
            .checkout (if tag_name = "main" then submitter else tag_name), .shell, .clean]) := by
  rw [checkout_to_tag_then_test]
  rw [run_bind_ok (gitDescribe_run s)]
  rw [if_pos (Ne.symm h)]
  rw [run_bind_ok (gitCheckoutTree_run _)]
  set tgt := if tag_name = "main" then submitter else tag_name with htgt
  set s1 : GitS := record .checkoutTree (record .describe s) with hs1
  by_cases hc : tgt ∈ s1.repo.branches ∨ tgt ∈ s1.repo.tags ∨ tgt ∈ s1.repo.remoteRefs
  · rw [run_bind_ok (run_try_ok (gitCheckout_ok hc))]
    rw [run_bind_ok (gitClean_run _)]
    constructor
    · rfl
    · left
      simp [hs1, record, M.pure]
  · by_cases hdw : (s1.repo.remotes.filter
        (fun n => decide ((n.1 ++ "/" ++ tgt) ∈ s1.repo.remoteRefs))).length = 1
    · rw [run_bind_ok (run_try_ok (gitCheckout_dwim_ok hc hdw))]
      rw [run_bind_ok (gitClean_run _)]
      constructor
      · rfl
      · left
        simp [hs1, record, M.pure]
    · have h2 : M.tryCatch (gitCheckout tgt) (fun _ => gitShell) s1
          = (.ok (), record .shell { s1 with trace := s1.trace ++ [.checkout tgt] }) := by
        rw [run_try_err (gitCheckout_fail hc hdw)]
        rfl
      rw [run_bind_ok h2]
      rw [run_bind_ok (gitClean_run _)]
      constructor
      · rfl
      · right
        simp [hs1, record, M.pure]

/-- MATCHED path of `to_branch`: only `rev-parse` and `clean -f -d` run. -/
theorem to_branch_matched (submitter branch_name : String) (s : GitS)
    (h : s.repo.head = s!"{submitter}-{branch_name}") :
    to_branch submitter branch_name s =
      (.ok (), { s with trace := s.trace ++ [.revParseHead, .clean] }) := by
  rw [to_branch]
  rw [run_bind_ok (gitRevParseHead_run s)]
  rw [h, if_neg (by simp)]
  rw [run_bind_ok (show M.pure () (record .revParseHead s) = (.ok (), record .revParseHead s) from rfl)]
  simp [gitClean, record]

/-- MISMATCHED path of `to_branch`: tree restore, checkout of
`{submitter}-{branch_name}` (shell on failure), clean. -/
theorem to_branch_mismatched (submitter branch_name : String) (s : GitS)
    (h : s.repo.head ≠ s!"{submitter}-{branch_name}") :
    (to_branch submitter branch_name s).2.trace
        = s.trace ++ [.revParseHead, .checkoutTree,
            .checkout s!"{submitter}-{branch_name}", .clean]
      ∨ (to_branch submitter branch_name s).2.trace
        = s.trace ++ [.revParseHead, .checkoutTree,
            .checkout s!"{submitter}-{branch_name}", .shell, .clean] := by
  rw [to_branch]
  rw [run_bind_ok (gitRevParseHead_run s)]
  rw [if_pos h]
  set tgt := s!"{submitter}-{branch_name}" with htgt
  rw [run_bind_ok (gitCheckoutTree_run _)]
  set s1 : GitS := record .checkoutTree (record .revParseHead s) with hs1
  by_cases hc : tgt ∈ s1.repo.branches ∨ tgt ∈ s1.repo.tags ∨ tgt ∈ s1.repo.remoteRefs
  · rw [run_bind_ok (run_try_ok (gitCheckout_ok hc))]
    left
    simp [gitClean, hs1, record]
  · by_cases hdw : (s1.repo.remotes.filter
        (fun n => decide ((n.1 ++ "/" ++ tgt) ∈ s1.repo.remoteRefs))).length = 1
    · rw [run_bind_ok (run_try_ok (gitCheckout_dwim_ok hc hdw))]
      left
      simp [gitClean, hs1, record]
    · have h2 : M.tryCatch (gitCheckout tgt) (fun _ => gitShell) s1
          = (.ok (), record .shell { s1 with trace := s1.trace ++ [.checkout tgt] }) := by
        rw [run_try_err (gitCheckout_fail hc hdw)]
        rfl
      rw [run_bind_ok h2]
      right
      simp [gitClean, hs1, record]

/-! ## Claims about the checkout wrappers -/

/-- **C2** (amended): in tag mode, when the currently checked-out ref
already equals the target tag (MATCHED), the wrapper performs zero checkout
operations and zero tracked-file restore (`git checkout -- *`) operations
before running the wrapped test, and leaves the repository's ref state
(HEAD, branches, tags, remotes) unchanged; however it still performs
exactly one untracked-file clean (`git clean -f -d`) before the test —
the invocation's git trace is exactly `[describe, clean]`. -/
theorem C2_tag_matched_skips_checkout (tag_name submitter : String) (s : GitS)
    (h : s.repo.head = tag_name) :
    traceOf (checkout_to_tag_then_test tag_name submitter) s = [.describe, .clean] ∧
    (checkout_to_tag_then_test tag_name submitter s).2.repo = s.repo := by
  constructor
  · rw [traceOf, tag_wrapper_matched tag_name submitter { s with trace := [] } h]
    simp
  · rw [tag_wrapper_matched tag_name submitter s h]

def envW : GitEnv :=
  { repoAt := fun u =>
      if u = "git@github.com:org/hw1-team1.git"
      then some { tags := ["hw1v1"], branches := ["main", "dev"] } else none,
    fetchOk := fun _ => true }

def sMatched : GitS :=
  { repo := { head := "hw1v1", branches := ["main"], tags := ["hw1v1"],
              remotes := [], remoteRefs := [] },
    env := envW, fetchCount := 0, trace := [] }

/-- **C2** counterexample: in the MATCHED state (HEAD already at tag
`"hw1v1"`) the wrapper still performs one clean operation
(`git clean -f -d`) on the working tree before running the wrapped test,
so "zero clean operations" is false as stated. -/
theorem C2_counterexample :
    (traceOf (checkout_to_tag_then_test "hw1v1" "alice") sMatched).count .clean = 1 := by
  decide

theorem C2_witness :
    sMatched.repo.head = "hw1v1" ∧
    (traceOf (checkout_to_tag_then_test "hw1v1" "alice") sMatched = [.describe, .clean] ∧
     (checkout_to_tag_then_test "hw1v1" "alice" sMatched).2.repo = sMatched.repo) :=
  ⟨rfl, C2_tag_matched_skips_checkout "hw1v1" "alice" sMatched rfl⟩

/-- **C4**: in tag mode with logical target `"main"` and a differing
current ref, the concrete ref passed to the checkout operation is the
submitter identity: the trace contains `checkout submitter`, and every
`checkout` command in the trace names the submitter (in particular, none
names the literal `"main"` unless the submitter is itself `"main"`). -/
theorem C4_tag_main_checks_out_submitter (submitter : String) (s : GitS)
    (h : s.repo.head ≠ "main") :
    GitCmd.checkout submitter ∈ traceOf (checkout_to_tag_then_test "main" submitter) s ∧
    ∀ r, GitCmd.checkout r ∈ traceOf (checkout_to_tag_then_test "main" submitter) s →
      r = submitter := by
  have hm := tag_wrapper_mismatched "main" submitter { s with trace := [] } h
  rw [if_pos rfl] at hm
  obtain ⟨-, htr | htr⟩ := hm <;>
    rw [traceOf, htr] <;>
    constructor <;>
    simp

theorem C4_witness :
    sMatched.repo.head ≠ "main" ∧
    (GitCmd.checkout "alice" ∈ traceOf (checkout_to_tag_then_test "main" "alice") sMatched ∧
     ∀ r, GitCmd.checkout r ∈ traceOf (checkout_to_tag_then_test "main" "alice") sMatched →
       r = "alice") :=
  ⟨by decide, C4_tag_main_checks_out_submitter "alice" sMatched (by decide)⟩

/-- **C7**: in branch mode the concrete checkout target is always
`{submitter}-{branch_name}` — whenever the current branch differs the
trace contains `checkout {submitter}-{branch_name}`, and every `checkout`
command `to_branch` issues names exactly that string, for every branch
name (no special case for `"main"`). -/
theorem C7_branch_mode_target (submitter branch_name : String) (s : GitS) :
    (s.repo.head ≠ s!"{submitter}-{branch_name}" →
      GitCmd.checkout s!"{submitter}-{branch_name}" ∈
        traceOf (to_branch submitter branch_name) s) ∧
    ∀ r, GitCmd.checkout r ∈ traceOf (to_branch submitter branch_name) s →
      r = s!"{submitter}-{branch_name}" := by
  by_cases h : s.repo.head = s!"{submitter}-{branch_name}"
  · constructor
    · intro hne
      exact absurd h hne
    · rw [traceOf, to_branch_matched submitter branch_name { s with trace := [] } h]
      simp
  · obtain htr | htr := to_branch_mismatched submitter branch_name { s with trace := [] } h <;>
      rw [traceOf] <;> rw [htr] <;> constructor <;> simp

theorem C7_witness :
    GitCmd.checkout "alice-main" ∈ traceOf (to_branch "alice" "main") sMatched ∧
    GitCmd.checkout "alice-dev" ∈ traceOf (to_branch "alice" "dev") sMatched :=
  ⟨(C7_branch_mode_target "alice" "main" sMatched).1 (by decide),
   (C7_branch_mode_target "alice" "dev" sMatched).1 (by decide)⟩

/-- **C10**: in tag mode with logical target `"main"`, an invocation that
takes the MISMATCHED path rebinds the decorator's captured `tag_name` (the
wrapper's returned binding) to the submitter identity; every subsequent
invocation — which receives that binding as its `tag_name` — keeps the
binding equal to the submitter, compares the current ref against the
submitter (matched ⇒ trace `[describe, clean]`, no checkout), and on
mismatch every checkout it issues names the submitter, so the
`"main"`-is-special resolution happens at most once. -/
theorem C10_nonlocal_rebinds_tag_name (submitter : String) (s : GitS)
    (h : s.repo.head ≠ "main") :
    (checkout_to_tag_then_test "main" submitter s).1 = .ok submitter ∧
    (∀ s2 : GitS, (checkout_to_tag_then_test submitter submitter s2).1 = .ok submitter) ∧
    (∀ s2 : GitS, s2.repo.head = submitter →
      traceOf (checkout_to_tag_then_test submitter submitter) s2 = [.describe, .clean]) ∧
    (∀ s2 : GitS, s2.repo.head ≠ submitter →
      GitCmd.checkout submitter ∈ traceOf (checkout_to_tag_then_test submitter submitter) s2 ∧
      ∀ r, GitCmd.checkout r ∈ traceOf (checkout_to_tag_then_test submitter submitter) s2 →
        r = submitter) := by
  refine ⟨?_, ?_, ?_, ?_⟩
  · have hm := (tag_wrapper_mismatched "main" submitter s h).1
    rwa [if_pos rfl] at hm
  · intro s2
    by_cases h2 : s2.repo.head = submitter
    · rw [tag_wrapper_matched submitter submitter s2 h2]
    · have hm := (tag_wrapper_mismatched submitter submitter s2 h2).1
      rwa [ite_self] at hm
  · intro s2 h2
    rw [traceOf, tag_wrapper_matched submitter submitter { s2 with trace := [] } h2]
    simp
  · intro s2 h2
    have hm := (tag_wrapper_mismatched submitter submitter { s2 with trace := [] } h2).2
    rw [ite_self] at hm
    obtain htr | htr := hm <;> rw [traceOf, htr] <;> constructor <;> simp

theorem C10_witness :
    sMatched.repo.head ≠ "main" ∧
    ((checkout_to_tag_then_test "main" "alice" sMatched).1 = .ok "alice" ∧
     (∀ s2 : GitS, (checkout_to_tag_then_test "alice" "alice" s2).1 = .ok "alice") ∧
     (∀ s2 : GitS, s2.repo.head = "alice" →
       traceOf (checkout_to_tag_then_test "alice" "alice") s2 = [.describe, .clean]) ∧
     (∀ s2 : GitS, s2.repo.head ≠ "alice" →
       GitCmd.checkout "alice" ∈ traceOf (checkout_to_tag_then_test "alice" "alice") s2 ∧
       ∀ r, GitCmd.checkout r ∈ traceOf (checkout_to_tag_then_test "alice" "alice") s2 →
         r = "alice")) :=
  ⟨by decide, C10_nonlocal_rebinds_tag_name "alice" sMatched (by decide)⟩

/-! ## Helper lemmas for the synchronization proofs -/

theorem interp_hyphen (a b : String) : s!"{a}-{b}" = a ++ "-" ++ b := by
  simp [toString]

theorem interp_slash (a b : String) : s!"{a}/{b}" = a ++ "/" ++ b := by
  simp [toString]

theorem interp_url (a : String) :
    s!"git@github.com:{a}.git" = "git@github.com:" ++ a ++ ".git" := by
  simp [toString]

theorem hyphen_ne (a b : String) : a ++ "-" ++ b ≠ b := by
  intro h
  have h2 := congrArg String.length h
  rw [String.length_append, String.length_append] at h2
  have h3 : ("-" : String).length = 1 := rfl
  omega

theorem mem_unionL {x : String} {l r : List String} :
    x ∈ unionL l r ↔ x ∈ l ∨ x ∈ r := by
  by_cases h : x ∈ l <;> simp [unionL, List.mem_filter, h]

theorem unionL_nil (r : List String) : unionL [] r = r := by
  simp [unionL]

theorem filter_not_mem_self (l : List String) :
    l.filter (fun x => decide (x ∉ l)) = [] :=
  List.filter_eq_nil_iff.mpr (by simp)

theorem filter_bne_of_not_mem {l : List String} {x : String} (h : x ∉ l) :
    l.filter (fun b => b != x) = l :=
  List.filter_eq_self.mpr (by intro a ha; simp; rintro rfl; exact h ha)

theorem filter_fst_bne_of_any_false {l : List (String × String)} {team : String}
    (h : l.any (fun r => r.1 == team) = false) :
    l.filter (fun r => r.1 != team) = l := by
  rw [List.filter_eq_self]
  intro a ha
  rw [List.any_eq_false] at h
  simpa using h a ha

theorem any_beq_filter_bne (l : List (String × String)) (team : String) :
    (l.filter (fun r => r.1 != team)).any (fun r => r.1 == team) = false := by
  simp [List.any_eq_true, List.mem_filter]

theorem find?_beq_filter_append (l : List (String × String)) (team u : String) :
    ((l.filter (fun r => r.1 != team)) ++ [(team, u)]).find? (fun r => r.1 == team)
      = some (team, u) := by
  induction l with
  | nil => simp [List.find?]
  | cons a as ih =>
      by_cases h : a.1 = team
      · simp [List.filter_cons, h, ih]
      · simp [List.filter_cons, h, List.find?, ih]

theorem filter_ne_filter_not_mem (tags : List String) (t : String) (ts : List String) :
    (tags.filter (fun x => x != t)).filter (fun x => decide (x ∉ ts))
      = tags.filter (fun x => decide (x ∉ t :: ts)) := by
  rw [List.filter_filter]
  apply List.filter_congr
  intro a _
  by_cases h1 : a = t <;> by_cases h2 : a ∈ ts <;> simp [h1, h2]

/-! ## Step lemmas for `checkout_to_team_branch` -/

theorem gitRemoteRm_ok {team : String} {s : GitS}
    (h : s.repo.remotes.any (fun r => r.1 == team) = true) :
    gitRemoteRm team s =
      (.ok (), { s with
        repo := { s.repo with
          remotes := s.repo.remotes.filter (fun r => r.1 != team),
          remoteRefs := s.repo.remoteRefs.filter
            (fun r => !listStarts (team ++ "/").toList r.toList) },
        trace := s.trace ++ [.remoteRm team] }) := by
  simp [gitRemoteRm, record, h]

theorem gitRemoteRm_err {team : String} {s : GitS}
    (h : s.repo.remotes.any (fun r => r.1 == team) = false) :
    gitRemoteRm team s =
      (.error ⟨"no such remote"⟩, { s with trace := s.trace ++ [.remoteRm team] }) := by
  simp [gitRemoteRm, record, h]

/-- The `try: remote rm except: pass` step always succeeds and leaves
`remotes` equal to the team-free filtering (a no-op when the team was not
registered). -/
theorem tryRemoteRm_run (team : String) (s : GitS) :
    M.tryCatch (gitRemoteRm team) (fun _ => M.pure ()) s =
      (.ok (), { s with
        repo := { s.repo with
          remotes := s.repo.remotes.filter (fun r => r.1 != team),
          remoteRefs := if s.repo.remotes.any (fun r => r.1 == team)
            then s.repo.remoteRefs.filter
              (fun r => !listStarts (team ++ "/").toList r.toList)
            else s.repo.remoteRefs },
        trace := s.trace ++ [.remoteRm team] }) := by
  by_cases h : s.repo.remotes.any (fun r => r.1 == team)
  · rw [run_try_ok (gitRemoteRm_ok h), if_pos h]
  · have hfalse : s.repo.remotes.any (fun r => r.1 == team) = false :=
      Bool.eq_false_iff.mpr h
    rw [run_try_err (gitRemoteRm_err hfalse)]
    rw [if_neg h]
    rw [filter_fst_bne_of_any_false hfalse]
    rfl

theorem gitCreateRemote_ok {team url : String} {s : GitS}
    (h : s.repo.remotes.any (fun r => r.1 == team) = false) :
    gitCreateRemote team url s =
      (.ok (), { s with
        repo := { s.repo with remotes := s.repo.remotes ++ [(team, url)] },
        trace := s.trace ++ [.createRemote team url] }) := by
  simp [gitCreateRemote, record, h]

theorem gitDeleteTag_run (t : String) (s : GitS) :
    gitDeleteTag t s =
      (.ok (), { s with
        repo := { s.repo with tags := s.repo.tags.filter (fun x => x != t) },
        trace := s.trace ++ [.deleteTag t] }) := by
  simp [gitDeleteTag, record]

theorem deleteAllTags_run (l : List String) (s : GitS) :
    deleteAllTags l s =
      (.ok (), { s with
        repo := { s.repo with tags := s.repo.tags.filter (fun x => decide (x ∉ l)) },
        trace := s.trace ++ l.map GitCmd.deleteTag }) := by
  induction l generalizing s with
  | nil =>
      simp [deleteAllTags, M.pure]
  | cons t ts ih =>
      rw [deleteAllTags]
      rw [run_bind_ok (gitDeleteTag_run t s)]
      rw [ih]
      rw [filter_ne_filter_not_mem]
      simp

theorem gitFetch_tags_ok {team url : String} {c : RemoteRepo} {s : GitS}
    (hfind : s.repo.remotes.find? (fun r => r.1 == team) = some (team, url))
    (hc : s.env.repoAt url = some c)
    (hok : s.env.fetchOk s.fetchCount = true) :
    gitFetch team "--tags" s =
      (.ok (), { s with
        fetchCount := s.fetchCount + 1,
        repo := { s.repo with
          tags := unionL s.repo.tags c.tags,
          remoteRefs := unionL s.repo.remoteRefs
            (c.branches.map (fun b => team ++ "/" ++ b)) },
        trace := s.trace ++ [.fetch team "--tags"] }) := by
  simp [gitFetch, record, hfind, hc, hok]

theorem gitFetch_main_ok {team url : String} {c : RemoteRepo} {s : GitS}
    (hfind : s.repo.remotes.find? (fun r => r.1 == team) = some (team, url))
    (hc : s.env.repoAt url = some c)
    (hok : s.env.fetchOk s.fetchCount = true)
    (hmain : "main" ∈ c.branches) :
    gitFetch team "main" s =
      (.ok (), { s with
        fetchCount := s.fetchCount + 1,
        repo := { s.repo with
          remoteRefs := unionL s.repo.remoteRefs [team ++ "/" ++ "main"] },
        trace := s.trace ++ [.fetch team "main"] }) := by
  simp [gitFetch, record, hfind, hc, hok, hmain]

theorem gitFetch_main_netfail {team url : String} {c : RemoteRepo} {s : GitS}
    (hfind : s.repo.remotes.find? (fun r => r.1 == team) = some (team, url))
    (hc : s.env.repoAt url = some c)
    (hok : s.env.fetchOk s.fetchCount = false) :
    gitFetch team "main" s =
      (.error ⟨"network failure"⟩,
       { s with fetchCount := s.fetchCount + 1,
                trace := s.trace ++ [.fetch team "main"] }) := by
  simp [gitFetch, record, hfind, hc, hok]

theorem gitBranchD_okk {name : String} {s : GitS}
    (hmem : name ∈ s.repo.branches) (hhead : name ≠ s.repo.head) :
    gitBranchD name s =
      (.ok (), { s with
        repo := { s.repo with
          branches := s.repo.branches.filter (fun b => b != name) },
        trace := s.trace ++ [.branchDelete name] }) := by
  simp [gitBranchD, record, hmem, hhead]

theorem gitBranchD_absent {name : String} {s : GitS}
    (hmem : name ∉ s.repo.branches) :
    gitBranchD name s =
      (.error ⟨"no such branch"⟩,
       { s with trace := s.trace ++ [.branchDelete name] }) := by
  simp [gitBranchD, record, hmem]

/-- The `try: branch -D except: pass` step, for a branch other than the
checked-out one, always succeeds and leaves `branches` equal to the
filtering (a no-op when the branch did not exist). -/
theorem tryBranchD_run (name : String) (s : GitS) (hhead : name ≠ s.repo.head) :
    M.tryCatch (gitBranchD name) (fun _ => M.pure ()) s =
      (.ok (), { s with
        repo := { s.repo with
          branches := s.repo.branches.filter (fun b => b != name) },
        trace := s.trace ++ [.branchDelete name] }) := by
  by_cases hmem : name ∈ s.repo.branches
  · rw [run_try_ok (gitBranchD_okk hmem hhead)]
  · rw [run_try_err (gitBranchD_absent hmem)]
    rw [filter_bne_of_not_mem hmem]
    rfl

theorem gitCheckoutB_ok {branch start : String} {s : GitS}
    (hb : branch ∉ s.repo.branches)
    (hstart : start ∈ s.repo.branches ∨ start ∈ s.repo.tags ∨ start ∈ s.repo.remoteRefs) :
    gitCheckoutB branch start s =
      (.ok (), { s with
        repo := { s.repo with
          branches := s.repo.branches ++ [branch], head := branch },
        trace := s.trace ++ [.checkoutNew branch start] }) := by
  simp [gitCheckoutB, record, hb, hstart]

theorem not_mem_filter_bne (l : List String) (x : String) :
    x ∉ l.filter (fun b => b != x) := by
  simp [List.mem_filter]

/-- Successful run of `checkout_to_team_branch` from any state whose local
branches include `branch_name`, with a reachable team remote that has a
`main` branch and (for a non-"main" `branch_name`) the requested branch:
returns `true` and produces exactly the synchronized state and command
trace below. -/
theorem sync_spec (id team bn : String) (c : RemoteRepo) (s : GitS)
    (hbn : bn ∈ s.repo.branches)
    (hc : s.env.repoAt ("git@github.com:" ++ id ++ ".git") = some c)
    (hmain : "main" ∈ c.branches)
    (hbr : bn = "main" ∨ bn ∈ c.branches)
    (hf0 : s.env.fetchOk s.fetchCount = true)
    (hf1 : s.env.fetchOk (s.fetchCount + 1) = true) :
    checkout_to_team_branch id team bn s =
      (.ok true,
       { repo := { head := team ++ "-" ++ bn,
                   branches := s.repo.branches.filter (fun b => b != team ++ "-" ++ bn)
                     ++ [team ++ "-" ++ bn],
                   tags := c.tags,
                   remotes := s.repo.remotes.filter (fun r => r.1 != team)
                     ++ [(team, "git@github.com:" ++ id ++ ".git")],
                   remoteRefs := unionL (unionL
                     (if s.repo.remotes.any (fun r => r.1 == team)
                      then s.repo.remoteRefs.filter
                        (fun r => !listStarts (team ++ "/").toList r.toList)
                      else s.repo.remoteRefs)
                     (c.branches.map (fun b => team ++ "/" ++ b)))
                     [team ++ "/" ++ "main"] },
         env := s.env, fetchCount := s.fetchCount + 1 + 1,
         trace := s.trace ++ [.checkout bn] ++ [.remoteRm team]
           ++ s.repo.tags.map GitCmd.deleteTag
           ++ [.createRemote team ("git@github.com:" ++ id ++ ".git")]
           ++ [.fetch team "--tags"] ++ [.fetch team "main"]
           ++ [.branchDelete (team ++ "-" ++ bn)]
           ++ [.checkoutNew (team ++ "-" ++ bn) (team ++ "/" ++ bn)] }) := by
  obtain ⟨⟨h0, b0, tg0, rm0, rf0⟩, env0, fc0, tr0⟩ := s
  dsimp only at hbn hc hf0 hf1 ⊢
  unfold checkout_to_team_branch
  simp only [interp_url, interp_hyphen, interp_slash]
  rw [run_bind_ok (gitCheckout_ok (Or.inl hbn))]
  try dsimp only
  rw [run_bind_ok (tryRemoteRm_run team _)]
  try dsimp only
  rw [run_bind_ok (getTags_run _)]
  try dsimp only
  rw [run_bind_ok (deleteAllTags_run _ _)]
  try dsimp only
  rw [filter_not_mem_self]
  rw [run_bind_ok (gitCreateRemote_ok (any_beq_filter_bne _ team))]
  try dsimp only
  rw [run_bind_ok (gitFetch_tags_ok (find?_beq_filter_append _ team _) hc hf0)]
  try dsimp only
  rw [unionL_nil]
  rw [run_bind_ok (run_try_ok (gitFetch_main_ok (find?_beq_filter_append _ team _) hc hf1 hmain))]
  try dsimp only
  rw [run_bind_ok (tryBranchD_run _ _ (hyphen_ne team bn))]
  try dsimp only
  by_cases hbnm : bn = "main"
  · subst hbnm
    rw [if_pos rfl]
    rw [run_bind_ok (run_try_ok (gitCheckoutB_ok (not_mem_filter_bne _ _)
      (Or.inr (Or.inr (mem_unionL.mpr (Or.inr (List.mem_singleton.mpr rfl)))))))]
    rfl
  · rw [if_neg hbnm]
    rw [run_bind_ok (gitCheckoutB_ok (not_mem_filter_bne _ _)
      (Or.inr (Or.inr (mem_unionL.mpr (Or.inl (mem_unionL.mpr (Or.inr
        (List.mem_map.mpr ⟨bn, hbr.resolve_left hbnm, rfl⟩))))))))]
    rfl

theorem filter_beq_filter_append (l : List (String × String)) (t u : String) :
    ((l.filter (fun r => r.1 != t)) ++ [(t, u)]).filter (fun r => r.1 == t)
      = [(t, u)] := by
  rw [List.filter_append, List.filter_filter]
  have h1 : l.filter (fun a => a.1 == t && a.1 != t) = [] := by
    apply List.filter_eq_nil_iff.mpr
    intro a _
    by_cases h : a.1 = t <;> simp [h]
  rw [h1]
  simp

theorem count_filter_append (l : List String) (x : String) :
    ((l.filter (fun b => b != x)) ++ [x]).count x = 1 := by
  rw [List.count_append]
  have h1 : (l.filter (fun b => b != x)).count x = 0 := by
    apply List.count_eq_zero.mpr
    exact not_mem_filter_bne l x
  rw [h1]
  simp [List.count_singleton]

def envTeamMain : GitEnv :=
  { repoAt := fun u => if u = "git@github.com:org/hw1-team1.git"
      then some { tags := [], branches := ["main"] } else none,
    fetchOk := fun _ => true }

/-- A pre-state from which one synchronization succeeds but a second
identical one cannot: `"main"` exists only as a tag (checked out, then
deleted by the first call's delete-all-tags step), and a stale remote
`other` still carries an `other/main` remote-tracking ref.  After the
first call the repository has two remote-tracking `main` refs
(`other/main` and `team1/main`), no local branch `main` and no tag
`main`. -/
def sAmbiguousMain : GitS :=
  { repo := { head := "skel", branches := ["skel"], tags := ["main"],
              remotes := [("other", "git@github.com:org/other.git")],
              remoteRefs := ["other/main"] },
    env := envTeamMain, fetchCount := 0, trace := [] }

/-- **C3** counterexample: a repository state reachable after one successful
`checkout_to_team_branch` call from which the second identical call fails.
The first call checks out the tag `main` and then deletes every tag; the
second call's initial `git checkout main` finds no local branch and no tag
named `main`, and its remote-branch guess matches two remote-tracking refs
(`other/main` and `team1/main`), which git rejects as ambiguous — the
raised error propagates instead of the call returning `true`. -/
theorem C3_counterexample :
    (checkout_to_team_branch "org/hw1-team1" "team1" "main" sAmbiguousMain).1
      = .ok true ∧
    (checkout_to_team_branch "org/hw1-team1" "team1" "main"
        (checkout_to_team_branch "org/hw1-team1" "team1" "main" sAmbiguousMain).2).1
      = .error ⟨"checkout failed"⟩ :=
  ⟨rfl, rfl⟩

/-- **C3** (amended): provided the base branch `branch_name` exists as a
local branch when the first call starts, the team remote is reachable and
has a `main` branch (and, when `branch_name ≠ "main"`, also has
`branch_name`), and fetches succeed, calling `checkout_to_team_branch`
twice in succession with the same team and branch is idempotent: the second
call also returns `true` and leaves exactly one remote named after the team
(pointing at the team URL), exactly one local tracking branch
`{team}-{branch_name}`, and exactly the tags the first run left (no
accumulation). -/
theorem C3_sync_idempotent (id team bn : String) (c : RemoteRepo) (s0 : GitS)
    (hbn : bn ∈ s0.repo.branches)
    (hc : s0.env.repoAt ("git@github.com:" ++ id ++ ".git") = some c)
    (hmain : "main" ∈ c.branches)
    (hbr : bn = "main" ∨ bn ∈ c.branches)
    (hf : ∀ i, s0.env.fetchOk i = true) :
    ∃ s1 s2 : GitS,
      checkout_to_team_branch id team bn s0 = (.ok true, s1) ∧
      checkout_to_team_branch id team bn s1 = (.ok true, s2) ∧
      s2.repo.remotes.filter (fun r => r.1 == team)
        = [(team, "git@github.com:" ++ id ++ ".git")] ∧
      s2.repo.branches.count (team ++ "-" ++ bn) = 1 ∧
      s2.repo.tags = s1.repo.tags := by
  have H1 := sync_spec id team bn c s0 hbn hc hmain hbr (hf _) (hf _)
  have hbn1 : bn ∈ s0.repo.branches.filter (fun b => b != team ++ "-" ++ bn)
      ++ [team ++ "-" ++ bn] := by
    refine List.mem_append.mpr (Or.inl (List.mem_filter.mpr ⟨hbn, ?_⟩))
    simpa using Ne.symm (hyphen_ne team bn)
  refine ⟨_, _, H1,
    sync_spec id team bn c _ hbn1 hc hmain hbr (hf _) (hf _), ?_, ?_, ?_⟩
  · exact filter_beq_filter_append _ team _
  · exact count_filter_append _ _
  · rfl

def sSyncW : GitS :=
  { repo := { head := "main", branches := ["main"], tags := ["v0"],
              remotes := [], remoteRefs := [] },
    env := envW, fetchCount := 0, trace := [] }

theorem C3_witness :
    ∃ s1 s2 : GitS,
      checkout_to_team_branch "org/hw1-team1" "team1" "main" sSyncW = (.ok true, s1) ∧
      checkout_to_team_branch "org/hw1-team1" "team1" "main" s1 = (.ok true, s2) ∧
      s2.repo.remotes.filter (fun r => r.1 == "team1")
        = [("team1", "git@github.com:" ++ "org/hw1-team1" ++ ".git")] ∧
      s2.repo.branches.count ("team1" ++ "-" ++ "main") = 1 ∧
      s2.repo.tags = s1.repo.tags :=
  C3_sync_idempotent "org/hw1-team1" "team1" "main"
    { tags := ["hw1v1"], branches := ["main", "dev"] } sSyncW
    (by decide) (by decide) (by decide) (Or.inl rfl) (fun _ => rfl)

theorem run_bind_try_err {α β : Type} {x : M α} {h : GitError → M α} {f : α → M β}
    {s t u : GitS} {e e' : GitError}
    (hx : x s = (.error e, t)) (hh : h e t = (.error e', u)) :
    (M.tryCatch x h >>= f) s = (.error e', u) := by
  show M.bind (M.tryCatch x h) f s = _
  simp [M.bind, M.tryCatch, hx, hh]

theorem run_bind_try_err_ok {α β : Type} {x : M α} {h : GitError → M α} {f : α → M β}
    {s t u : GitS} {e : GitError} {a : α}
    (hx : x s = (.error e, t)) (hh : h e t = (.ok a, u)) :
    (M.tryCatch x h >>= f) s = f a u := by
  show M.bind (M.tryCatch x h) f s = _
  simp [M.bind, M.tryCatch, hx, hh]

/-- **C6**: during synchronization, when the fetch of the remote's `main`
branch fails a first time, the exact same fetch call is retried exactly
once: the trace shows precisely two consecutive `fetch team "main"`
commands and no third fetch attempt.  If the retry also fails the failure
propagates to the caller as an error (not swallowed); if the retry
succeeds the run continues normally and still fetched `main` exactly
twice. -/
theorem C6_fetch_retry_once (id team bn : String) (c : RemoteRepo) (s : GitS)
    (hbn : bn ∈ s.repo.branches)
    (hc : s.env.repoAt ("git@github.com:" ++ id ++ ".git") = some c)
    (hf0 : s.env.fetchOk s.fetchCount = true)
    (hf1 : s.env.fetchOk (s.fetchCount + 1) = false) :
    (s.env.fetchOk (s.fetchCount + 1 + 1) = false →
      (checkout_to_team_branch id team bn s).1 = .error ⟨"network failure"⟩ ∧
      (checkout_to_team_branch id team bn s).2.trace
        = s.trace ++ [.checkout bn] ++ [.remoteRm team]
          ++ s.repo.tags.map GitCmd.deleteTag
          ++ [.createRemote team ("git@github.com:" ++ id ++ ".git")]
          ++ [.fetch team "--tags"] ++ [.fetch team "main"] ++ [.fetch team "main"]) ∧
    (s.env.fetchOk (s.fetchCount + 1 + 1) = true → "main" ∈ c.branches →
      (bn = "main" ∨ bn ∈ c.branches) →
      (checkout_to_team_branch id team bn s).1 = .ok true ∧
      (checkout_to_team_branch id team bn s).2.trace
        = s.trace ++ [.checkout bn] ++ [.remoteRm team]
          ++ s.repo.tags.map GitCmd.deleteTag
          ++ [.createRemote team ("git@github.com:" ++ id ++ ".git")]
          ++ [.fetch team "--tags"] ++ [.fetch team "main"] ++ [.fetch team "main"]
          ++ [.branchDelete (team ++ "-" ++ bn)]
          ++ [.checkoutNew (team ++ "-" ++ bn) (team ++ "/" ++ bn)]) := by
  obtain ⟨⟨h0, b0, tg0, rm0, rf0⟩, env0, fc0, tr0⟩ := s
  dsimp only at hbn hc hf0 hf1 ⊢
  constructor
  · intro hf2
    unfold checkout_to_team_branch
    simp only [interp_url, interp_hyphen, interp_slash]
    rw [run_bind_ok (gitCheckout_ok (Or.inl hbn))]
    try dsimp only
    rw [run_bind_ok (tryRemoteRm_run team _)]
    try dsimp only
    rw [run_bind_ok (getTags_run _)]
    try dsimp only
    rw [run_bind_ok (deleteAllTags_run _ _)]
    try dsimp only
    rw [filter_not_mem_self]
    rw [run_bind_ok (gitCreateRemote_ok (any_beq_filter_bne _ team))]
    try dsimp only
    rw [run_bind_ok (gitFetch_tags_ok (find?_beq_filter_append _ team _) hc hf0)]
    try dsimp only
    rw [unionL_nil]
    rw [run_bind_try_err
      (gitFetch_main_netfail (find?_beq_filter_append _ team _) hc hf1)
      (gitFetch_main_netfail (find?_beq_filter_append _ team _) hc hf2)]
    exact ⟨rfl, rfl⟩
  · intro hf2 hmain hbr
    unfold checkout_to_team_branch
    simp only [interp_url, interp_hyphen, interp_slash]
    rw [run_bind_ok (gitCheckout_ok (Or.inl hbn))]
    try dsimp only
    rw [run_bind_ok (tryRemoteRm_run team _)]
    try dsimp only
    rw [run_bind_ok (getTags_run _)]
    try dsimp only
    rw [run_bind_ok (deleteAllTags_run _ _)]
    try dsimp only
    rw [filter_not_mem_self]
    rw [run_bind_ok (gitCreateRemote_ok (any_beq_filter_bne _ team))]
    try dsimp only
    rw [run_bind_ok (gitFetch_tags_ok (find?_beq_filter_append _ team _) hc hf0)]
    try dsimp only
    rw [unionL_nil]
    rw [run_bind_try_err_ok
      (gitFetch_main_netfail (find?_beq_filter_append _ team _) hc hf1)
      (gitFetch_main_ok (find?_beq_filter_append _ team _) hc hf2 hmain)]
    try dsimp only
    rw [run_bind_ok (tryBranchD_run _ _ (hyphen_ne team bn))]
    try dsimp only
    by_cases hbnm : bn = "main"
    · subst hbnm
      rw [if_pos rfl]
      rw [run_bind_ok (run_try_ok (gitCheckoutB_ok (not_mem_filter_bne _ _)
        (Or.inr (Or.inr (mem_unionL.mpr (Or.inr (List.mem_singleton.mpr rfl)))))))]
      exact ⟨rfl, rfl⟩
    · rw [if_neg hbnm]
      rw [run_bind_ok (gitCheckoutB_ok (not_mem_filter_bne _ _)
        (Or.inr (Or.inr (mem_unionL.mpr (Or.inl (mem_unionL.mpr (Or.inr
          (List.mem_map.mpr ⟨bn, hbr.resolve_left hbnm, rfl⟩))))))))]
      exact ⟨rfl, rfl⟩

def envRetry : GitEnv :=
  { repoAt := fun u => if u = "git@github.com:org/hw1-team1.git"
      then some { tags := ["hw1v1"], branches := ["main", "dev"] } else none,
    fetchOk := fun i => i == 0 }

def sRetryW : GitS :=
  { repo := { head := "main", branches := ["main"], tags := ["v0"],
              remotes := [], remoteRefs := [] },
    env := envRetry, fetchCount := 0, trace := [] }

theorem C6_witness :
    (checkout_to_team_branch "org/hw1-team1" "team1" "main" sRetryW).1
      = .error ⟨"network failure"⟩ ∧
    (checkout_to_team_branch "org/hw1-team1" "team1" "main" sRetryW).2.trace
      = sRetryW.trace ++ [.checkout "main"] ++ [.remoteRm "team1"]
        ++ sRetryW.repo.tags.map GitCmd.deleteTag
        ++ [.createRemote "team1" ("git@github.com:" ++ "org/hw1-team1" ++ ".git")]
        ++ [.fetch "team1" "--tags"] ++ [.fetch "team1" "main"] ++ [.fetch "team1" "main"] :=
  (C6_fetch_retry_once "org/hw1-team1" "team1" "main"
      { tags := ["hw1v1"], branches := ["main", "dev"] } sRetryW
      (by decide) (by decide) rfl rfl).1 rfl

/-! ## Claims about `check_late` -/

theorem pyLe_some {a b : PyDateTime} (ha : a.offsetMin.isSome = true)
    (hb : b.offsetMin.isSome = true) : pyLe a b = some (dtLe a b) := by
  obtain ⟨x, hx⟩ := Option.isSome_iff_exists.mp ha
  obtain ⟨y, hy⟩ := Option.isSome_iff_exists.mp hb
  simp [pyLe, hx, hy]

theorem localizeNY_offset_isSome (x : PyDateTime) :
    (localizeNY x).offsetMin.isSome = true := by
  simp [localizeNY]

/-- **C1**: for every deadline line `strptime` accepts (in particular every
well-formed `MM/DD/YY HH:MM AM|PM` line) and every timezone-aware
submission timestamp, `check_late` returns `false` exactly when the
submission is `≤` the deadline normalized to second 59 of the stated
minute and localized to America/New_York, and `true` otherwise. -/
theorem C1_check_late_boundary (line iso : String) (raw sub : PyDateTime)
    (hline : strptimeDeadline line = some raw)
    (hsub : fromisoformat iso = some sub)
    (haware : sub.offsetMin.isSome = true) :
    check_late line iso =
      .ok (!dtLe sub (localizeNY { raw with second := 59, offsetMin := none })) := by
  have hne : line ≠ "" := by
    intro h
    rw [h] at hline
    simp [strptimeDeadline, parseNat2] at hline
  unfold check_late
  rw [hsub]
  try dsimp only
  rw [if_neg hne, hline]
  try dsimp only
  rw [pyLe_some haware (localizeNY_offset_isSome _)]
  cases hD : dtLe sub (localizeNY { raw with second := 59, offsetMin := none }) <;> rfl

def rawW : PyDateTime :=
  { year := 2024, month := 1, day := 1, hour := 23, minute := 59,
    second := 0, micro := 0, offsetMin := none }

def subW : PyDateTime :=
  { year := 2024, month := 1, day := 1, hour := 23, minute := 59,
    second := 59, micro := 0, offsetMin := some (-300) }

theorem C1_witness :
    strptimeDeadline "01/01/24 11:59 PM" = some rawW ∧
    fromisoformat "2024-01-01T23:59:59-05:00" = some subW ∧
    subW.offsetMin.isSome = true ∧
    check_late "01/01/24 11:59 PM" "2024-01-01T23:59:59-05:00" =
      .ok (!dtLe subW (localizeNY { rawW with second := 59, offsetMin := none })) :=
  ⟨by decide, by decide, by decide,
   C1_check_late_boundary "01/01/24 11:59 PM" "2024-01-01T23:59:59-05:00" rawW subW
     (by decide) (by decide) (by decide)⟩

/-- **C5**: `check_late` on an empty deadline file (empty first line)
returns `false` without raising, for every submission timestamp the
timestamp parser accepts. -/
theorem C5_empty_deadline_not_late (iso : String) (sub : PyDateTime)
    (hsub : fromisoformat iso = some sub) :
    check_late "" iso = .ok false := by
  unfold check_late
  rw [hsub]
  rfl

theorem C5_witness :
    fromisoformat "2024-01-01T23:59:59-05:00" = some subW ∧
    check_late "" "2024-01-01T23:59:59-05:00" = .ok false :=
  ⟨by decide, C5_empty_deadline_not_late "2024-01-01T23:59:59-05:00" subW (by decide)⟩

/-- **C8**: for every valid submission timestamp and every non-empty
deadline line that `strptime` rejects, `check_late` raises the deadline
parse error (it propagates; no boolean is returned). -/
theorem C8_malformed_deadline_raises (line iso : String) (sub : PyDateTime)
    (hsub : fromisoformat iso = some sub)
    (hne : line ≠ "")
    (hbad : strptimeDeadline line = none) :
    check_late line iso = .error .deadlineParseError := by
  unfold check_late
  rw [hsub]
  try dsimp only
  rw [if_neg hne, hbad]

theorem C8_witness :
    fromisoformat "2024-01-01T23:59:59-05:00" = some subW ∧
    "January 1" ≠ "" ∧
    strptimeDeadline "January 1" = none ∧
    check_late "January 1" "2024-01-01T23:59:59-05:00"
      = .error .deadlineParseError :=
  ⟨by decide, by decide, by decide,
   C8_malformed_deadline_raises "January 1" "2024-01-01T23:59:59-05:00" subW
     (by decide) (by decide) (by decide)⟩

/-- **C9**: `check_late` parses its `iso_timestamp` argument first, so for
every string the timestamp parser rejects it raises the timestamp parse
error for every deadline line — including the empty one — instead of
returning `false`. -/
theorem C9_timestamp_parsed_first (line iso : String)
    (hbad : fromisoformat iso = none) :
    check_late line iso = .error .timestampParseError := by
  unfold check_late
  rw [hbad]

theorem C9_witness :
    fromisoformat "notadate" = none ∧
    check_late "" "notadate" = .error .timestampParseError :=
  ⟨by decide, C9_timestamp_parsed_first "" "notadate" (by decide)⟩
